import Mathlib

/-!
Verification development for the `abdullateef_api` repository: a shallow
embedding of its data model (SQLAlchemy models in `db/models/`), its
data-access objects (`db/dao/`), and the hajj-package HTTP layer
(`web/api/hajj_package/`), together with proofs about the properties the
specification states.

Conventions of the embedding:
* UUIDs are natural numbers; the `nextId` field of `DB` plays the role of
  `uuid.uuid4` freshness (id collisions are ignored, as usual).
* The database is a `DB` record of entity lists; SQLAlchemy queries become
  list operations; `flush`/`commit` integrity checks (foreign keys, unique
  columns) become explicit checks that make an operation return `none`.
* `random.choices` / `random.shuffle` are modelled by an oracle
  (`Nat → CodeDraw`) whose draws carry exactly the guarantees the Python
  functions give (elements come from the population, shuffling permutes).
* Unbounded `while True` loops take a fuel argument; `none` models
  non-termination.
-/

namespace AbdullateefApi

/-- UUIDs are modelled as natural numbers. -/
abbrev UUID := Nat

/-- `GenderEnum` from `db/enums.py`. -/
inductive Gender
| male
| female
| other
deriving DecidableEq

/-- `CountryEnum` from `db/enums.py`. -/
inductive Country
| ng
| uk
| us
| ca
deriving DecidableEq

/-- `BookingStatusEnum` from `db/enums.py`. -/
inductive BookingStatus
| registered
| completed
| cancelled
| moved
deriving DecidableEq

/-- `PaymentTypeEnum` from `db/enums.py`. -/
inductive PaymentType
| registration
| installment
deriving DecidableEq

/-- `CommissionStatusEnum` from `db/enums.py`. -/
inductive CommissionStatus
| pending
| paid
deriving DecidableEq

/-- `Agent` model (`db/models/agent.py`): timestamps and relationship
attributes are not part of the record; columns are. -/
structure Agent where
  id : UUID
  first_name : String
  last_name : String
  other_name : Option String
  sex : Option Gender
  phone_number : Option String
  bank_name : Option String
  account_number : Option String
  agent_code : String
deriving DecidableEq

/-- `Client` model (`db/models/client.py`). `date_of_birth` is kept as the
optional string the DAO accepts. -/
structure Client where
  id : UUID
  first_name : String
  last_name : String
  other_name : Option String
  sex : Gender
  phone_number : String
  passport_number : String
  date_of_birth : Option String
  location : Country
  referee_id : Option UUID
deriving DecidableEq

/-- `HajjPackage` model (`db/models/hajj_package.py`). Price fields carry the
values the HTTP layer passes through (floats, modelled as rationals). -/
structure HajjPackage where
  id : UUID
  year : Int
  local_price : Rat
  diaspora_price : Rat
  registration_fee : Rat
  commission_amount : Rat
  description : Option String
deriving DecidableEq

/-- `Booking` model (`db/models/booking.py`). -/
structure Booking where
  id : UUID
  client_id : UUID
  package_id : UUID
  agent_id : Option UUID
  travelling_from : Option Country
  status : BookingStatus
  moved_to_booking_id : Option UUID
deriving DecidableEq

/-- `Commission` model (`db/models/commission.py`); `commission_amount` is a
Python `int`, hence `Int`. -/
structure Commission where
  id : UUID
  agent_id : UUID
  booking_id : UUID
  commission_amount : Int
  status : CommissionStatus
deriving DecidableEq

/-- `PaymentTransaction` model (`db/models/payment_transaction.py`). -/
structure PaymentTransaction where
  id : UUID
  booking_id : UUID
  amount : Int
  payment_type : PaymentType
deriving DecidableEq

/-- `Note` model (`db/models/note.py`). -/
structure Note where
  id : UUID
  client_id : UUID
  content : String
  created_by : Option UUID
deriving DecidableEq

/-- The relational store: one list per table plus the fresh-id counter. -/
structure DB where
  agents : List Agent
  clients : List Client
  packages : List HajjPackage
  bookings : List Booking
  commissions : List Commission
  payments : List PaymentTransaction
  notes : List Note
  nextId : UUID
deriving DecidableEq

/-- The empty database. -/
def dbEmpty : DB := ⟨[], [], [], [], [], [], [], 0⟩

/-- Python's `string.ascii_uppercase`, as a list of characters. -/
def asciiUppercase : List Char :=
  ['A', 'B', 'C', 'D', 'E', 'F', 'G', 'H', 'I', 'J', 'K', 'L', 'M',
   'N', 'O', 'P', 'Q', 'R', 'S', 'T', 'U', 'V', 'W', 'X', 'Y', 'Z']

/-- Python's `string.digits`, as a list of characters. -/
def asciiDigits : List Char :=
  ['0', '1', '2', '3', '4', '5', '6', '7', '8', '9']

/-- One round of randomness inside `AgentDAO._generate_agent_code`:
`random.choices(string.ascii_uppercase, k=3)`,
`random.choices(string.digits, k=2)`, and `random.shuffle` on their
concatenation. The fields carry exactly the guarantees those library
functions give: lengths, membership in the population, and that shuffling
permutes the list. -/
structure CodeDraw where
  letters : List Char
  digitChars : List Char
  shuffled : List Char
  letters_len : letters.length = 3
  letters_mem : ∀ c ∈ letters, c ∈ asciiUppercase
  digits_len : digitChars.length = 2
  digits_mem : ∀ c ∈ digitChars, c ∈ asciiDigits
  shuffled_perm : shuffled.Perm (letters ++ digitChars)

/-- A concrete draw, used to evaluate the generator on concrete inputs. -/
def sampleDraw : CodeDraw :=
  ⟨['A', 'B', 'C'], ['1', '2'], ['A', 'B', 'C', '1', '2'],
   rfl, by decide, rfl, by decide, List.Perm.refl _⟩

/-- Python truthiness of an `Optional[str]`: `None` and `""` are falsy.
`AgentDAO.create_agent` tests `if not agent_code:`. -/
def pyTruthy : Option String → Bool
  | none => false
  | some s => !s.isEmpty

/-- The integrity constraints the relational store enforces at
`flush`/`commit`, read off the column declarations in `db/models/`:
primary keys are unique, `agents.agent_code` and `clients.passport_number`
are unique, and every foreign-key column refers to an existing row
(`bookings.client_id/package_id/agent_id/moved_to_booking_id`,
`commissions.agent_id/booking_id`, `payment_transactions.booking_id`,
`notes.client_id`, `clients.referee_id`). A write operation whose
`flush`/`commit` would leave the database violating one of these raises
`IntegrityError`, modelled as the operation returning `none`; on databases
that already satisfy the constraints this whole-state check coincides with
the store's per-row check. -/
def dbOk (db : DB) : Bool :=
  decide (db.agents.map Agent.id).Nodup &&
  decide (db.clients.map Client.id).Nodup &&
  decide (db.packages.map HajjPackage.id).Nodup &&
  decide (db.bookings.map Booking.id).Nodup &&
  decide (db.commissions.map Commission.id).Nodup &&
  decide (db.payments.map PaymentTransaction.id).Nodup &&
  decide (db.notes.map Note.id).Nodup &&
  decide (db.agents.map Agent.agent_code).Nodup &&
  decide (db.clients.map Client.passport_number).Nodup &&
  db.bookings.all (fun b =>
    db.clients.any (fun c => c.id == b.client_id) &&
    db.packages.any (fun p => p.id == b.package_id) &&
    (match b.agent_id with
     | none => true
     | some a => db.agents.any (fun ag => ag.id == a)) &&
    (match b.moved_to_booking_id with
     | none => true
     | some m => db.bookings.any (fun b2 => b2.id == m))) &&
  db.commissions.all (fun c =>
    db.agents.any (fun a => a.id == c.agent_id) &&
    db.bookings.any (fun b => b.id == c.booking_id)) &&
  db.payments.all (fun p => db.bookings.any (fun b => b.id == p.booking_id)) &&
  db.notes.all (fun n => db.clients.any (fun c => c.id == n.client_id)) &&
  db.clients.all (fun c =>
    match c.referee_id with
    | none => true
    | some r => db.agents.any (fun a => a.id == r))

namespace AgentDAO

/-- `AgentDAO.get_by_code`: first agent whose `agent_code` equals the
argument (the column is unique, so first = only). -/
def get_by_code (agents : List Agent) (agent_code : String) : Option Agent :=
  agents.find? (fun a => a.agent_code == agent_code)

/-- `AgentDAO._generate_agent_code`: draw a candidate, return it if no
persisted agent has it, otherwise retry. `fuel` bounds the unbounded
`while True` loop; `n` indexes the oracle. -/
def generateAgentCode (draws : Nat → CodeDraw) (agents : List Agent) :
    Nat → Nat → Option String
  | 0, _ => none
  | fuel + 1, n =>
    let code := String.mk (draws n).shuffled
    match get_by_code agents code with
    | some _ => generateAgentCode draws agents fuel (n + 1)
    | none => some code

/-- `AgentDAO.create_agent`: generate a code when the caller's `agent_code`
is falsy (absent or empty), build the agent, and flush. The flush enforces
the unique constraint on `agent_code` (`none` = IntegrityError); `none` is
also returned when the generator's fuel runs out. -/
def create_agent (draws : Nat → CodeDraw) (fuel : Nat) (db : DB)
    (first_name last_name : String) (agent_code : Option String)
    (other_name : Option String) (sex : Option Gender)
    (phone_number bank_name account_number : Option String) :
    Option (Agent × DB) :=
  let code? := if pyTruthy agent_code then agent_code
               else generateAgentCode draws db.agents fuel 0
  match code? with
  | none => none
  | some code =>
    let agent : Agent :=
      { id := db.nextId, first_name, last_name, other_name, sex,
        phone_number, bank_name, account_number, agent_code := code }
    let db' : DB := { db with agents := db.agents ++ [agent],
                              nextId := db.nextId + 1 }
    if dbOk db' then some (agent, db') else none

end AgentDAO

namespace CommissionDAO

/-- `CommissionDAO.get_by_id`. -/
def get_by_id (db : DB) (commission_id : UUID) : Option Commission :=
  db.commissions.find? (fun c => c.id == commission_id)

/-- `CommissionDAO.create`: build the commission from the caller's
arguments (no validation of the amount appears in the source) and flush. -/
def create (db : DB) (agent_id booking_id : UUID) (commission_amount : Int)
    (status : CommissionStatus) : Option (Commission × DB) :=
  let commission : Commission :=
    { id := db.nextId, agent_id, booking_id, commission_amount, status }
  let db' : DB := { db with commissions := db.commissions ++ [commission],
                            nextId := db.nextId + 1 }
  if dbOk db' then some (commission, db') else none

/-- `CommissionDAO.update_amount`: `UPDATE commissions SET commission_amount
= new_amount WHERE id = commission_id`, then re-read. -/
def update_amount (db : DB) (commission_id : UUID) (new_amount : Int) :
    Option Commission × DB :=
  let commissions := db.commissions.map (fun c =>
    if c.id == commission_id then { c with commission_amount := new_amount }
    else c)
  let db' : DB := { db with commissions }
  (get_by_id db' commission_id, db')

end CommissionDAO

namespace PaymentTransactionDAO

/-- `PaymentTransactionDAO.get_by_id`. -/
def get_by_id (db : DB) (transaction_id : UUID) : Option PaymentTransaction :=
  db.payments.find? (fun p => p.id == transaction_id)

/-- `PaymentTransactionDAO.create_payment_transaction`: build from the
caller's arguments (no validation of the amount) and flush. -/
def create_payment_transaction (db : DB) (booking_id : UUID) (amount : Int)
    (payment_type : PaymentType) : Option (PaymentTransaction × DB) :=
  let transaction : PaymentTransaction :=
    { id := db.nextId, booking_id, amount, payment_type }
  let db' : DB := { db with payments := db.payments ++ [transaction],
                            nextId := db.nextId + 1 }
  if dbOk db' then some (transaction, db') else none

/-- `PaymentTransactionDAO.update_transaction_amount`: `UPDATE ... SET
amount = new_amount WHERE id = transaction_id`, flush, re-read. -/
def update_transaction_amount (db : DB) (transaction_id : UUID)
    (new_amount : Int) : Option PaymentTransaction × DB :=
  let payments := db.payments.map (fun p =>
    if p.id == transaction_id then { p with amount := new_amount } else p)
  let db' : DB := { db with payments }
  (get_by_id db' transaction_id, db')

end PaymentTransactionDAO

namespace BookingDAO

/-- `BookingDAO.get_by_id`. -/
def get_by_id (db : DB) (booking_id : UUID) : Option Booking :=
  db.bookings.find? (fun b => b.id == booking_id)

/-- `BookingDAO.create`: build the booking and flush (foreign keys on
`client_id`, `package_id`, `agent_id`, `moved_to_booking_id` are enforced
by the flush). -/
def create (db : DB) (client_id package_id : UUID) (agent_id : Option UUID)
    (travelling_from : Option Country) (status : BookingStatus)
    (moved_to_booking_id : Option UUID) : Option (Booking × DB) :=
  let booking : Booking :=
    { id := db.nextId, client_id, package_id, agent_id, travelling_from,
      status, moved_to_booking_id }
  let db' : DB := { db with bookings := db.bookings ++ [booking],
                            nextId := db.nextId + 1 }
  if dbOk db' then some (booking, db') else none

/-- `BookingDAO.delete`: `DELETE ... WHERE id = booking_id RETURNING id`;
the returned Bool tells whether a row was deleted. The flush fails when a
commission, payment, or another booking's moved-to link still references
the deleted row. -/
def delete (db : DB) (booking_id : UUID) : Option (Bool × DB) :=
  let deleted := db.bookings.any (fun b => b.id == booking_id)
  let db' : DB :=
    { db with bookings := db.bookings.filter (fun b => !(b.id == booking_id)) }
  if dbOk db' then some (deleted, db') else none

/-- `BookingDAO.get_by_client`. -/
def get_by_client (db : DB) (client_id : UUID) : List Booking :=
  db.bookings.filter (fun b => b.client_id == client_id)

/-- `BookingDAO.move_booking`: `UPDATE bookings SET moved_to_booking_id =
new_booking_id WHERE id = booking_id`, flush, then re-read. -/
def move_booking (db : DB) (booking_id new_booking_id : UUID) :
    Option (Option Booking × DB) :=
  let bookings := db.bookings.map (fun b =>
    if b.id == booking_id then { b with moved_to_booking_id := some new_booking_id }
    else b)
  let db' : DB := { db with bookings }
  if dbOk db' then some (get_by_id db' booking_id, db') else none

end BookingDAO

namespace NoteDAO

/-- `NoteDAO.get_by_client_id`. -/
def get_by_client_id (db : DB) (client_id : UUID) : List Note :=
  db.notes.filter (fun n => n.client_id == client_id)

end NoteDAO

namespace HajjPackageDAO

/-- `HajjPackageDAO.get_package_by_id`. -/
def get_package_by_id (db : DB) (package_id : UUID) : Option HajjPackage :=
  db.packages.find? (fun p => p.id == package_id)

/-- `HajjPackageDAO.create_hajj_package`: build and flush. -/
def create_hajj_package (db : DB) (year : Int)
    (local_price diaspora_price registration_fee commission_amount : Rat)
    (description : Option String) : Option (HajjPackage × DB) :=
  let package : HajjPackage :=
    { id := db.nextId, year, local_price, diaspora_price, registration_fee,
      commission_amount, description }
  let db' : DB := { db with packages := db.packages ++ [package],
                            nextId := db.nextId + 1 }
  if dbOk db' then some (package, db') else none

/-- `HajjPackageDAO.delete_package`: `DELETE ... WHERE id = package_id`,
commit, then `rowcount > 0`. The commit fails when a booking still
references the package. -/
def delete_package (db : DB) (package_id : UUID) : Option (Bool × DB) :=
  let deleted := db.packages.any (fun p => p.id == package_id)
  let db' : DB :=
    { db with packages := db.packages.filter (fun p => !(p.id == package_id)) }
  if dbOk db' then some (deleted, db') else none

end HajjPackageDAO

/-- Lower-casing of a character list, as both sides of an `ILIKE` undergo. -/
def lowerList (l : List Char) : List Char := l.map Char.toLower

/-- Executable substring test: `occursIn needle hay` iff `needle` occurs
contiguously inside `hay` (it starts some suffix of `hay`). -/
def occursIn (needle hay : List Char) : Bool :=
  hay.tails.any (fun suf => needle.isPrefixOf suf)

/-- Character lists free of the SQL `LIKE` wildcards `%` and `_`. -/
def noWildcardList (l : List Char) : Bool :=
  l.all (fun c => !(c == '%') && !(c == '_'))

/-- SQL `LIKE` pattern matching: `%` matches any sequence of characters
(so the rest of the pattern must match some suffix of the text), `_`
matches exactly one character, every other pattern character matches
itself. No escape character is in play in this codebase. -/
def likeMatch : List Char → List Char → Bool
  | [], t => t.isEmpty
  | p :: ps, t =>
    if p = '%' then t.tails.any (fun suf => likeMatch ps suf)
    else
      match t with
      | [] => false
      | c :: ts => if p = '_' then likeMatch ps ts
                   else (p == c) && likeMatch ps ts

/-- SQLAlchemy's `column.ilike(pattern)`: case-insensitive `LIKE`, i.e.
`LIKE` on the lower-cased column and pattern. -/
def ilike (column : String) (pat : String) : Bool :=
  likeMatch (lowerList pat.data) (lowerList column.data)

namespace ClientDAO

/-- `ClientDAO.get_by_id` (`scalars().first()`). -/
def get_by_id (db : DB) (client_id : UUID) : Option Client :=
  db.clients.find? (fun c => c.id == client_id)

/-- `ClientDAO.create_client`: build the client and commit (the commit
enforces the unique `passport_number` column and the `referee_id`
foreign key). -/
def create_client (db : DB) (first_name last_name : String) (sex : Gender)
    (phone_number passport_number : String) (location : Country)
    (other_name date_of_birth : Option String) (referee_id : Option UUID) :
    Option (Client × DB) :=
  let client : Client :=
    { id := db.nextId, first_name, last_name, other_name, sex, phone_number,
      passport_number, date_of_birth, location, referee_id }
  let db' : DB := { db with clients := db.clients ++ [client],
                            nextId := db.nextId + 1 }
  if dbOk db' then some (client, db') else none

/-- `ClientDAO.get_by_name`: `WHERE first_name ILIKE '%name%' OR last_name
ILIKE '%name%' OR other_name ILIKE '%name%'`. A `NULL` `other_name`
compares to SQL `NULL`, which is not a match. -/
def get_by_name (db : DB) (name : String) : List Client :=
  db.clients.filter (fun c =>
    ilike c.first_name ("%" ++ name ++ "%") ||
    ilike c.last_name ("%" ++ name ++ "%") ||
    (match c.other_name with
     | none => false
     | some o => ilike o ("%" ++ name ++ "%")))

/-- `ClientDAO.delete_client`: `False` when the id misses; otherwise
`session.delete(client)` with the `cascade="all, delete-orphan"`
relationships of `Client` (its bookings and notes are deleted with it),
then commit. -/
def delete_client (db : DB) (client_id : UUID) : Option (Bool × DB) :=
  match get_by_id db client_id with
  | none => some (false, db)
  | some _ =>
    let db' : DB :=
      { db with
        clients := db.clients.filter (fun c => !(c.id == client_id)),
        bookings := db.bookings.filter (fun b => !(b.client_id == client_id)),
        notes := db.notes.filter (fun n => !(n.client_id == client_id)) }
    if dbOk db' then some (true, db') else none

end ClientDAO

namespace AgentDAO

/-- `AgentDAO.filter_by_name`: starts from `select(Agent)` and adds an
`ILIKE '%…%'` clause per argument that is truthy (Python `if first_name:`,
so `None` and `""` add no clause). -/
def filter_by_name (db : DB) (first_name last_name : Option String) :
    List Agent :=
  let step1 :=
    if pyTruthy first_name then
      db.agents.filter (fun a =>
        ilike a.first_name ("%" ++ first_name.getD "" ++ "%"))
    else db.agents
  if pyTruthy last_name then
    step1.filter (fun a =>
      ilike a.last_name ("%" ++ last_name.getD "" ++ "%"))
  else step1

end AgentDAO

/-- A well-typed value for one `Client` column, as passed through
`ClientDAO.update_client`'s `**kwargs` (a type-mismatched `setattr` would
fail at commit and is outside the well-typed calls modelled here). -/
inductive FieldVal
| str (s : String)
| uuid (u : UUID)
| gender (g : Gender)
| country (c : Country)
deriving DecidableEq

/-- The attribute names of the mapped `Client` columns, for the
`hasattr(client, key)` test in `ClientDAO.update_client`. -/
def clientAttrNames : List String :=
  ["id", "first_name", "last_name", "other_name", "sex", "phone_number",
   "passport_number", "date_of_birth", "location", "referee_id"]

/-- `setattr(client, key, value)` for the mapped columns, dispatching on
the value's type and then the attribute name; a key that names no column
of the embedding leaves the record unchanged. -/
def setClientAttr (c : Client) (key : String) (v : FieldVal) : Client :=
  match v with
  | .uuid u =>
    if key = "id" then { c with id := u }
    else if key = "referee_id" then { c with referee_id := some u }
    else c
  | .str s =>
    if key = "first_name" then { c with first_name := s }
    else if key = "last_name" then { c with last_name := s }
    else if key = "other_name" then { c with other_name := some s }
    else if key = "phone_number" then { c with phone_number := s }
    else if key = "passport_number" then { c with passport_number := s }
    else if key = "date_of_birth" then { c with date_of_birth := some s }
    else c
  | .gender g => if key = "sex" then { c with sex := g } else c
  | .country l => if key = "location" then { c with location := l } else c

/-- `getattr(client, key)` for the mapped columns: `none` when the key is
not a column, `some none` when the column is SQL `NULL`. -/
def getClientAttr (c : Client) (key : String) : Option (Option FieldVal) :=
  if key = "id" then some (some (.uuid c.id))
  else if key = "first_name" then some (some (.str c.first_name))
  else if key = "last_name" then some (some (.str c.last_name))
  else if key = "other_name" then some (c.other_name.map .str)
  else if key = "sex" then some (some (.gender c.sex))
  else if key = "phone_number" then some (some (.str c.phone_number))
  else if key = "passport_number" then some (some (.str c.passport_number))
  else if key = "date_of_birth" then some (c.date_of_birth.map .str)
  else if key = "location" then some (some (.country c.location))
  else if key = "referee_id" then some (c.referee_id.map .uuid)
  else none

/-- One iteration of `ClientDAO.update_client`'s loop:
`if hasattr(client, key) and value is not None: setattr(client, key, value)`. -/
def applyKwarg (c : Client) (kv : String × Option FieldVal) : Client :=
  match kv.2 with
  | none => c
  | some v => if clientAttrNames.contains kv.1 then setClientAttr c kv.1 v else c

namespace ClientDAO

/-- `ClientDAO.update_client`: `None` (with no change) when the id misses;
otherwise apply each keyword argument through the `hasattr`/`not None`
filter and commit. -/
def update_client (db : DB) (client_id : UUID)
    (kwargs : List (String × Option FieldVal)) : Option (Option Client × DB) :=
  match get_by_id db client_id with
  | none => some (none, db)
  | some client =>
    let client' := kwargs.foldl applyKwarg client
    let clients := db.clients.map (fun c =>
      if c.id == client_id then client' else c)
    let db' : DB := { db with clients }
    if dbOk db' then some (some client', db') else none

end ClientDAO

/-- Outcome of an HTTP handler: a body with a status, or an
`HTTPException`-style error status. -/
inductive HttpResult (α : Type) where
| ok (status : Nat) (body : α)
| err (status : Nat)
deriving DecidableEq

/-- `HajjPackageInputDTO` from `web/api/hajj_package/schema.py`. -/
structure HajjPackageInputDTO where
  year : Int
  local_price : Rat
  diaspora_price : Rat
  registration_fee : Rat
  commission_amount : Rat
  description : Option String
deriving DecidableEq

/-- The pydantic validation of `HajjPackageInputDTO`: `year ≥ 2000`, the
four amounts `≥ 0`, and `description` at most 1000 characters when
present. -/
def validHajjPackageInput (p : HajjPackageInputDTO) : Bool :=
  decide (2000 ≤ p.year) && decide (0 ≤ p.local_price) &&
  decide (0 ≤ p.diaspora_price) && decide (0 ≤ p.registration_fee) &&
  decide (0 ≤ p.commission_amount) &&
  (match p.description with
   | none => true
   | some s => decide (s.length ≤ 1000))

namespace HajjPackageViews

/-- `POST /` from `web/api/hajj_package/views.py`: pydantic validates the
payload (422 on failure, before any DAO call), then
`HajjPackageDAO.create_hajj_package` runs with the payload's fields. -/
def create_hajj_package (db : DB) (payload : HajjPackageInputDTO) :
    HttpResult HajjPackage × DB :=
  if validHajjPackageInput payload then
    match HajjPackageDAO.create_hajj_package db payload.year
        payload.local_price payload.diaspora_price payload.registration_fee
        payload.commission_amount payload.description with
    | some (package, db') => (.ok 200 package, db')
    | none => (.err 500, db)
  else (.err 422, db)

/-- `GET /{package_id}`: 200 with the package, or 404 on a miss. -/
def get_hajj_package (db : DB) (package_id : UUID) : HttpResult HajjPackage :=
  match HajjPackageDAO.get_package_by_id db package_id with
  | some package => .ok 200 package
  | none => .err 404

/-- `DELETE /{package_id}`: 204 when `delete_package` reports a deleted
row, 404 otherwise; an `IntegrityError` escaping the DAO surfaces as a
server error. -/
def delete_hajj_package (db : DB) (package_id : UUID) :
    HttpResult Unit × DB :=
  match HajjPackageDAO.delete_package db package_id with
  | some (true, db') => (.ok 204 (), db')
  | some (false, db') => (.err 404, db')
  | none => (.err 500, db)

end HajjPackageViews

/-- The moved-to invariant of the specification: every present
`moved_to_booking_id` refers to an existing booking. -/
def movedToOk (db : DB) : Prop :=
  ∀ b ∈ db.bookings, ∀ m, b.moved_to_booking_id = some m →
    ∃ b2 ∈ db.bookings, b2.id = m

/-! ## Sample data for concrete evaluations -/

/-- An agent on file. -/
def sampleAgent : Agent :=
  ⟨0, "Ada", "Lovelace", none, none, none, none, none, "ZZZ99"⟩

/-- A client on file. -/
def sampleClient : Client :=
  ⟨1, "Bob", "Crane", none, .male, "080", "P123", none, .ng, none⟩

/-- A package on file. -/
def samplePackage : HajjPackage := ⟨2, 2026, 100, 200, 10, 5, none⟩

/-- A booking of `sampleClient` on `samplePackage`. -/
def sampleBooking : Booking := ⟨3, 1, 2, none, none, .registered, none⟩

/-- A small consistent database. -/
def dbSample : DB :=
  ⟨[sampleAgent], [sampleClient], [samplePackage], [sampleBooking],
   [], [], [], 4⟩

/-- `dbSample` with a (negative-amount) commission on file. -/
def dbWithCommission : DB :=
  { dbSample with commissions := [⟨4, 0, 3, -5, .pending⟩], nextId := 5 }

/-- The commission of `dbWithCommission` after its amount becomes 7. -/
def commissionUpd : Commission := ⟨4, 0, 3, 7, .pending⟩

/-- `sampleBooking` after being moved to itself. -/
def bookingMoved : Booking := ⟨3, 1, 2, none, none, .registered, some 3⟩

/-- `dbSample` after `move_booking 3 3`. -/
def dbMoved : DB := { dbSample with bookings := [bookingMoved] }

/-- A database holding only `samplePackage`. -/
def dbPkg : DB := ⟨[], [], [samplePackage], [], [], [], [], 3⟩

/-- `dbPkg` after the package is deleted. -/
def dbPkgDeleted : DB := { dbPkg with packages := [] }

/-- `dbSample` after booking 3 is deleted. -/
def dbBookingDeleted : DB := { dbSample with bookings := [] }

/-- `dbSample` after client 1 is deleted (its booking cascades away). -/
def dbClientDeleted : DB := { dbSample with clients := [], bookings := [] }

/-- `dbSample` with a note on `sampleClient`. -/
def dbWithNote : DB := { dbSample with notes := [⟨4, 1, "call back", none⟩],
                                       nextId := 5 }

/-- `dbWithNote` after client 1 is deleted (booking and note cascade). -/
def dbNoteDeleted : DB :=
  { dbWithNote with clients := [], bookings := [], notes := [] }

/-- `sampleClient` after a phone-number update. -/
def clientUpd : Client :=
  ⟨1, "Bob", "Crane", none, .male, "090", "P123", none, .ng, none⟩

/-- `dbSample` after `sampleClient`'s phone-number update. -/
def dbClientUpd : DB := { dbSample with clients := [clientUpd] }

/-! ## Helper lemmas -/

/-- No character is both an ASCII digit and an ASCII uppercase letter. -/
theorem digits_not_uppercase : ∀ c ∈ asciiDigits, c ∉ asciiUppercase := by
  decide

/-- A shuffled draw has five characters. -/
theorem codeDraw_length (d : CodeDraw) : d.shuffled.length = 5 := by
  have h := d.shuffled_perm.length_eq
  rw [List.length_append, d.letters_len, d.digits_len] at h
  exact h

/-- A shuffled draw has exactly three uppercase letters. -/
theorem codeDraw_count_upper (d : CodeDraw) :
    d.shuffled.countP (fun c => decide (c ∈ asciiUppercase)) = 3 := by
  rw [d.shuffled_perm.countP_eq, List.countP_append]
  have h1 : d.letters.countP (fun c => decide (c ∈ asciiUppercase)) =
      d.letters.length :=
    List.countP_eq_length.mpr (fun a ha => by
      simpa using d.letters_mem a ha)
  have h2 : d.digitChars.countP (fun c => decide (c ∈ asciiUppercase)) = 0 :=
    List.countP_eq_zero.mpr (fun a ha => by
      simpa using digits_not_uppercase a (d.digits_mem a ha))
  rw [h1, h2, d.letters_len]

/-- A shuffled draw has exactly two digits. -/
theorem codeDraw_count_digit (d : CodeDraw) :
    d.shuffled.countP (fun c => decide (c ∈ asciiDigits)) = 2 := by
  rw [d.shuffled_perm.countP_eq, List.countP_append]
  have h1 : d.letters.countP (fun c => decide (c ∈ asciiDigits)) = 0 :=
    List.countP_eq_zero.mpr (fun a ha => by
      have hu := d.letters_mem a ha
      simp only [decide_eq_true_eq]
      intro hd
      exact digits_not_uppercase a hd hu)
  have h2 : d.digitChars.countP (fun c => decide (c ∈ asciiDigits)) =
      d.digitChars.length :=
    List.countP_eq_length.mpr (fun a ha => by
      simpa using d.digits_mem a ha)
  rw [h1, h2, d.digits_len]

/-! ## Claim theorems -/

/-- Claim C1: every code returned by `AgentDAO._generate_agent_code` is
exactly 5 characters long, made of 3 uppercase letters and 2 digits in some
order, and differs from the agent code of every agent persisted when the
code is returned. -/
theorem generated_agent_code_spec (draws : Nat → CodeDraw)
    (agents : List Agent) (fuel n : Nat) (code : String)
    (h : AgentDAO.generateAgentCode draws agents fuel n = some code) :
    code.length = 5 ∧
    code.data.countP (fun c => decide (c ∈ asciiUppercase)) = 3 ∧
    code.data.countP (fun c => decide (c ∈ asciiDigits)) = 2 ∧
    ∀ a ∈ agents, a.agent_code ≠ code := by
  induction fuel generalizing n with
  | zero => simp [AgentDAO.generateAgentCode] at h
  | succ fuel ih =>
    rw [AgentDAO.generateAgentCode] at h
    split at h
    · exact ih _ h
    · rename_i hfind
      cases h
      refine ⟨codeDraw_length _, codeDraw_count_upper _, codeDraw_count_digit _, ?_⟩
      intro a ha heq
      have := List.find?_eq_none.mp hfind a ha
      simp [heq] at this

/-- Witness for C1 at a concrete oracle and an empty agent table. -/
theorem generated_agent_code_spec_witness :
    (String.mk ['A', 'B', 'C', '1', '2']).length = 5 ∧
    (String.mk ['A', 'B', 'C', '1', '2']).data.countP
      (fun c => decide (c ∈ asciiUppercase)) = 3 ∧
    (String.mk ['A', 'B', 'C', '1', '2']).data.countP
      (fun c => decide (c ∈ asciiDigits)) = 2 ∧
    ∀ a ∈ ([] : List Agent), a.agent_code ≠ String.mk ['A', 'B', 'C', '1', '2'] :=
  generated_agent_code_spec (fun _ => sampleDraw) [] 1 0 _ rfl

/-- Counterexample to C2 as stated: the caller supplies the explicit
agent-code string `""`, but Python's `if not agent_code:` treats the empty
string as falsy, so a generated code (here `"ABC12"`) replaces it. -/
theorem create_agent_empty_code_cex :
    ((AbdullateefApi.AgentDAO.create_agent (fun _ => sampleDraw) 1 dbEmpty
        "Ada" "Lovelace" (some "") none none none none none).map
      (fun r => r.1.agent_code)) = some (String.mk ['A', 'B', 'C', '1', '2']) ∧
    String.mk ['A', 'B', 'C', '1', '2'] ≠ "" := by
  refine ⟨rfl, by decide⟩

/-- Claim C2, amended: when the caller supplies a non-empty `agent_code`
string and `create_agent` succeeds, the returned and persisted agent holds
exactly that code; no generated code replaces it. (The empty string is
falsy in Python and triggers generation.) -/
theorem create_agent_preserves_explicit_code (draws : Nat → CodeDraw)
    (fuel : Nat) (db : DB) (fn ln code : String)
    (oth ph bn an : Option String) (sex : Option Gender)
    (a : Agent) (db' : DB) (hne : code ≠ "")
    (h : AgentDAO.create_agent draws fuel db fn ln (some code) oth sex ph bn an
          = some (a, db')) :
    a.agent_code = code ∧ a ∈ db'.agents := by
  have hcode : pyTruthy (some code) = true := by
    have : code.isEmpty = false := by
      rcases Bool.eq_false_or_eq_true code.isEmpty with hf | ht
      · exact absurd ((String.isEmpty_iff code).mp hf) hne
      · exact ht
    simp [pyTruthy, this]
  simp only [AgentDAO.create_agent, hcode, if_true] at h
  split at h
  · cases h
    exact ⟨rfl, by simp⟩
  · cases h

/-- Integrity checking implies the moved-to invariant. -/
theorem dbOk_movedToOk (db : DB) (h : dbOk db = true) : movedToOk db := by
  intro b hb m hm
  simp only [dbOk, Bool.and_eq_true, and_assoc, List.all_eq_true] at h
  obtain ⟨-, -, -, -, -, -, -, -, -, hbook, -, -, -, -⟩ := h
  have hcl := hbook b hb
  simp only [Bool.and_eq_true, and_assoc] at hcl
  obtain ⟨-, -, -, hmv⟩ := hcl
  rw [hm] at hmv
  simp only [List.any_eq_true] at hmv
  obtain ⟨b2, hb2, hid⟩ := hmv
  exact ⟨b2, hb2, by simpa using (beq_iff_eq.mp hid)⟩

/-- Witness for C2 (amended) at a concrete call. -/
theorem create_agent_preserves_explicit_code_witness :
    (match AgentDAO.create_agent (fun _ => sampleDraw) 0 dbEmpty "Ada"
        "Lovelace" (some "ZZZ99") none none none none none with
     | some (a, db') => a.agent_code = "ZZZ99" ∧ a ∈ db'.agents
     | none => False) := by
  have h : AgentDAO.create_agent (fun _ => sampleDraw) 0 dbEmpty "Ada"
      "Lovelace" (some "ZZZ99") none none none none none =
      some ({ id := 0, first_name := "Ada", last_name := "Lovelace",
              other_name := none, sex := none, phone_number := none,
              bank_name := none, account_number := none,
              agent_code := "ZZZ99" },
            { dbEmpty with
                agents := [{ id := 0, first_name := "Ada",
                             last_name := "Lovelace", other_name := none,
                             sex := none, phone_number := none,
                             bank_name := none, account_number := none,
                             agent_code := "ZZZ99" }],
                nextId := 1 }) := by decide
  rw [h]
  exact create_agent_preserves_explicit_code (fun _ => sampleDraw) 0 dbEmpty
    "Ada" "Lovelace" "ZZZ99" none none none none none _ _ (by decide) h

/-- Counterexample to C3 as stated: `CommissionDAO.create` accepts and
persists a negative amount; no operation rejects it. -/
theorem negative_amount_persisted_cex :
    CommissionDAO.create dbSample 0 3 (-5) .pending =
      some (⟨4, 0, 3, -5, .pending⟩, dbWithCommission) ∧
    (⟨4, 0, 3, -5, .pending⟩ : Commission).commission_amount < 0 := by
  exact ⟨by decide, by decide⟩

/-- Claim C3, amended: the four amount-carrying operations of
`CommissionDAO` and `PaymentTransactionDAO` store exactly the
caller-supplied amount, with no sign validation, so the persisted amount is
non-negative exactly when the caller's amount is. -/
theorem amounts_stored_verbatim (db : DB) (agent_id booking_id target_id : UUID)
    (amount : Int) (status : CommissionStatus) (ptype : PaymentType) :
    (∀ c db', CommissionDAO.create db agent_id booking_id amount status
        = some (c, db') →
      c.commission_amount = amount ∧ c ∈ db'.commissions) ∧
    (∀ c, (CommissionDAO.update_amount db target_id amount).1 = some c →
      c.commission_amount = amount ∧
      c ∈ (CommissionDAO.update_amount db target_id amount).2.commissions) ∧
    (∀ p db', PaymentTransactionDAO.create_payment_transaction db booking_id
        amount ptype = some (p, db') →
      p.amount = amount ∧ p ∈ db'.payments) ∧
    (∀ p, (PaymentTransactionDAO.update_transaction_amount db target_id
        amount).1 = some p →
      p.amount = amount ∧
      p ∈ (PaymentTransactionDAO.update_transaction_amount db target_id
        amount).2.payments) := by
  refine ⟨?_, ?_, ?_, ?_⟩
  · intro c db' h
    simp only [CommissionDAO.create] at h
    split at h
    · cases h; exact ⟨rfl, by simp⟩
    · cases h
  · intro c h
    simp only [CommissionDAO.update_amount] at h
    have hmem := List.mem_of_find?_eq_some h
    have hpred := List.find?_some h
    simp only [List.mem_map] at hmem
    obtain ⟨c0, -, hc0⟩ := hmem
    constructor
    · by_cases hid : (c0.id == target_id) = true
      · rw [if_pos hid] at hc0; rw [← hc0]
      · rw [if_neg hid] at hc0
        rw [← hc0] at hpred
        exact absurd hpred hid
    · simpa [CommissionDAO.update_amount] using List.mem_of_find?_eq_some h
  · intro p db' h
    simp only [PaymentTransactionDAO.create_payment_transaction] at h
    split at h
    · cases h; exact ⟨rfl, by simp⟩
    · cases h
  · intro p h
    simp only [PaymentTransactionDAO.update_transaction_amount] at h
    have hmem := List.mem_of_find?_eq_some h
    have hpred := List.find?_some h
    simp only [List.mem_map] at hmem
    obtain ⟨p0, -, hp0⟩ := hmem
    constructor
    · by_cases hid : (p0.id == target_id) = true
      · rw [if_pos hid] at hp0; rw [← hp0]
      · rw [if_neg hid] at hp0
        rw [← hp0] at hpred
        exact absurd hpred hid
    · simpa [PaymentTransactionDAO.update_transaction_amount] using
        List.mem_of_find?_eq_some h

/-- Witness for C3 (amended) at a concrete amount update. -/
theorem amounts_stored_verbatim_witness :
    commissionUpd.commission_amount = 7 ∧
    commissionUpd ∈
      (CommissionDAO.update_amount dbWithCommission 4 7).2.commissions :=
  (amounts_stored_verbatim dbWithCommission 0 3 4 7 .pending
    .registration).2.1 commissionUpd (by decide)

/-- Counterexample to C4 as stated: `move_booking` happily links a booking
to itself; the self-reference is persisted and returned. -/
theorem move_booking_self_reference_cex :
    BookingDAO.move_booking dbSample 3 3 = some (some bookingMoved, dbMoved) ∧
    bookingMoved.moved_to_booking_id = some bookingMoved.id := by
  exact ⟨by decide, by decide⟩

/-- Claim C4, amended: in every state reached through a successful
`BookingDAO.create` or `BookingDAO.move_booking`, a present
`moved_to_booking_id` refers to an existing booking (the foreign key rules
out dangling references), though that booking may be the referencing one
itself — self-references are not prevented. -/
theorem booking_moved_to_exists (db : DB) :
    (∀ cid pid aid tf st mv b db',
        BookingDAO.create db cid pid aid tf st mv = some (b, db') →
        movedToOk db') ∧
    (∀ bid nid r db',
        BookingDAO.move_booking db bid nid = some (r, db') →
        movedToOk db') := by
  constructor
  · intro cid pid aid tf st mv b db' h
    simp only [BookingDAO.create] at h
    split at h
    · rename_i hok
      cases h
      exact dbOk_movedToOk _ hok
    · cases h
  · intro bid nid r db' h
    simp only [BookingDAO.move_booking] at h
    split at h
    · rename_i hok
      cases h
      exact dbOk_movedToOk _ hok
    · cases h

/-- Witness for C4 (amended): the self-move still satisfies the
no-dangling invariant. -/
theorem booking_moved_to_exists_witness : movedToOk dbMoved :=
  (booking_moved_to_exists dbSample).2 3 3 (some bookingMoved) dbMoved
    (by decide)

set_option maxRecDepth 20000 in
/-- Counterexample to C5 as stated: a payload whose four amounts are all
`≥ 0` and whose year is `≥ 2000` is still rejected, because its description
exceeds pydantic's `max_length=1000`. -/
theorem hajj_long_description_cex :
    (2000 : Int) ≥ 2000 ∧ (0 : Rat) ≥ 0 ∧
    HajjPackageViews.create_hajj_package dbEmpty
        ⟨2000, 0, 0, 0, 0, some (String.mk (List.replicate 1001 'a'))⟩
      = (.err 422, dbEmpty) := by
  exact ⟨by decide, by decide, by decide⟩

/-- Claim C5, amended: hajj-package creation rejects the payload with a
422 before any DAO call (and unchanged state) whenever one of the four
amounts is negative or the year is below 2000; a payload with all four
amounts non-negative, year at least 2000, and a description of at most
1000 characters when present passes validation, and a successful creation
persists a package carrying exactly the payload's fields. -/
theorem hajj_package_validation (db : DB) (p : HajjPackageInputDTO) :
    ((p.year < 2000 ∨ p.local_price < 0 ∨ p.diaspora_price < 0 ∨
      p.registration_fee < 0 ∨ p.commission_amount < 0) →
      HajjPackageViews.create_hajj_package db p = (.err 422, db)) ∧
    ((2000 ≤ p.year ∧ 0 ≤ p.local_price ∧ 0 ≤ p.diaspora_price ∧
      0 ≤ p.registration_fee ∧ 0 ≤ p.commission_amount ∧
      ∀ s, p.description = some s → s.length ≤ 1000) →
      validHajjPackageInput p = true ∧
      ∀ pkg db', HajjPackageViews.create_hajj_package db p = (.ok 200 pkg, db') →
        pkg.year = p.year ∧ pkg.local_price = p.local_price ∧
        pkg.diaspora_price = p.diaspora_price ∧
        pkg.registration_fee = p.registration_fee ∧
        pkg.commission_amount = p.commission_amount ∧
        pkg.description = p.description ∧ pkg ∈ db'.packages) := by
  constructor
  · intro h
    have hv : validHajjPackageInput p = false := by
      unfold validHajjPackageInput
      rcases h with h | h | h | h | h <;>
        simp [decide_eq_false (not_le.mpr h)]
    simp [HajjPackageViews.create_hajj_package, hv]
  · intro h
    obtain ⟨h1, h2, h3, h4, h5, h6⟩ := h
    have hv : validHajjPackageInput p = true := by
      unfold validHajjPackageInput
      cases hd : p.description with
      | none => simp [h1, h2, h3, h4, h5]
      | some s => simp [h1, h2, h3, h4, h5, h6 s hd]
    refine ⟨hv, ?_⟩
    intro pkg db' h'
    simp only [HajjPackageViews.create_hajj_package, hv, if_true] at h'
    cases hc : HajjPackageDAO.create_hajj_package db p.year p.local_price
        p.diaspora_price p.registration_fee p.commission_amount
        p.description with
    | none => rw [hc] at h'; cases h'
    | some r =>
      rw [hc] at h'
      obtain ⟨pkg0, db0⟩ := r
      cases h'
      simp only [HajjPackageDAO.create_hajj_package] at hc
      split at hc
      · cases hc
        exact ⟨rfl, rfl, rfl, rfl, rfl, rfl, by simp⟩
      · cases hc

/-- Witness for C5 (amended): a below-range year is rejected with 422, a
well-formed payload passes validation. -/
theorem hajj_package_validation_witness :
    HajjPackageViews.create_hajj_package dbEmpty ⟨1999, 0, 0, 0, 0, none⟩
      = (.err 422, dbEmpty) ∧
    validHajjPackageInput ⟨2026, 5, 6, 7, 8, none⟩ = true :=
  ⟨(hajj_package_validation dbEmpty ⟨1999, 0, 0, 0, 0, none⟩).1
      (Or.inl (by decide)),
   ((hajj_package_validation dbEmpty ⟨2026, 5, 6, 7, 8, none⟩).2
      ⟨by decide, by decide, by decide, by decide, by decide,
       fun s hs => by cases hs⟩).1⟩

/-- Searching for a key among the rows that survived deleting that key
finds nothing. -/
theorem find?_of_filter_ne {α β : Type} [BEq β] (l : List α) (f : α → β)
    (v : β) :
    (l.filter (fun x => !(f x == v))).find? (fun x => f x == v) = none := by
  apply List.find?_eq_none.mpr
  intro x hx
  have hmem := (List.mem_filter.mp hx).2
  simp only [Bool.not_eq_true'] at hmem
  simp [hmem]

/-- Claim C7: a completed DAO delete makes the subsequent get-by-id miss:
`none` for deleted hajj packages, bookings and clients, and a 404 from the
hajj-package HTTP get. -/
theorem delete_then_get_not_found (db : DB) (pid bid cid : UUID) :
    (∀ r db', HajjPackageDAO.delete_package db pid = some (r, db') →
      HajjPackageDAO.get_package_by_id db' pid = none ∧
      HajjPackageViews.get_hajj_package db' pid = .err 404) ∧
    (∀ r db', BookingDAO.delete db bid = some (r, db') →
      BookingDAO.get_by_id db' bid = none) ∧
    (∀ r db', ClientDAO.delete_client db cid = some (r, db') →
      ClientDAO.get_by_id db' cid = none) := by
  refine ⟨?_, ?_, ?_⟩
  · intro r db' h
    simp only [HajjPackageDAO.delete_package] at h
    split at h
    · cases h
      have hfind : HajjPackageDAO.get_package_by_id
          { db with packages :=
              db.packages.filter (fun p => !(p.id == pid)) } pid = none :=
        find?_of_filter_ne db.packages HajjPackage.id pid
      refine ⟨hfind, ?_⟩
      simp [HajjPackageViews.get_hajj_package, hfind]
    · cases h
  · intro r db' h
    simp only [BookingDAO.delete] at h
    split at h
    · cases h
      exact find?_of_filter_ne db.bookings Booking.id bid
    · cases h
  · intro r db' h
    simp only [ClientDAO.delete_client] at h
    split at h
    · rename_i hmiss
      cases h
      exact hmiss
    · split at h
      · cases h
        exact find?_of_filter_ne db.clients Client.id cid
      · cases h

/-- Witness for C7 at three concrete deletions. -/
theorem delete_then_get_not_found_witness :
    (HajjPackageDAO.get_package_by_id dbPkgDeleted 2 = none ∧
     HajjPackageViews.get_hajj_package dbPkgDeleted 2 = .err 404) ∧
    BookingDAO.get_by_id dbBookingDeleted 3 = none ∧
    ClientDAO.get_by_id dbClientDeleted 1 = none :=
  ⟨(delete_then_get_not_found dbPkg 2 3 1).1 true dbPkgDeleted (by decide),
   (delete_then_get_not_found dbSample 2 3 1).2.1 true dbBookingDeleted
     (by decide),
   (delete_then_get_not_found dbSample 2 3 1).2.2 true dbClientDeleted
     (by decide)⟩

/-- Claim C8: a successful `ClientDAO.delete_client` cascades: afterwards
the client's bookings and notes are gone. -/
theorem delete_client_cascades (db : DB) (cid : UUID) (db' : DB)
    (h : ClientDAO.delete_client db cid = some (true, db')) :
    BookingDAO.get_by_client db' cid = [] ∧
    NoteDAO.get_by_client_id db' cid = [] := by
  simp only [ClientDAO.delete_client] at h
  split at h
  · cases h
  · split at h
    · cases h
      constructor
      · apply List.filter_eq_nil_iff.mpr
        intro b hb
        have := (List.mem_filter.mp hb).2
        simp only [Bool.not_eq_true'] at this
        simp [BookingDAO.get_by_client, this]
      · apply List.filter_eq_nil_iff.mpr
        intro n hn
        have := (List.mem_filter.mp hn).2
        simp only [Bool.not_eq_true'] at this
        simp [this]
    · cases h

/-- Witness for C8 at a concrete client with a booking and a note. -/
theorem delete_client_cascades_witness :
    BookingDAO.get_by_client dbNoteDeleted 1 = [] ∧
    NoteDAO.get_by_client_id dbNoteDeleted 1 = [] :=
  delete_client_cascades dbWithNote 1 dbNoteDeleted (by decide)

/-- Deleting a package no booking references keeps the database
constraints satisfied. -/
theorem dbOk_delete_package (db : DB) (pid : UUID) (hok : dbOk db = true)
    (hnoref : db.bookings.all (fun b => !(b.package_id == pid)) = true) :
    dbOk { db with
            packages := db.packages.filter (fun p => !(p.id == pid)) }
      = true := by
  simp only [dbOk, Bool.and_eq_true, and_assoc, List.all_eq_true,
    decide_eq_true_eq] at hok ⊢
  obtain ⟨h1, h2, h3, h4, h5, h6, h7, h8, h9, hbook, hcom, hpay, hnote,
    hcli⟩ := hok
  refine ⟨h1, h2, ?_, h4, h5, h6, h7, h8, h9, ?_, hcom, hpay, hnote, hcli⟩
  · exact List.Nodup.sublist
      (List.Sublist.map _ (List.filter_sublist _)) h3
  · intro b hb
    have hcl := hbook b hb
    simp only [Bool.and_eq_true, and_assoc] at hcl ⊢
    obtain ⟨hc, hp, ha, hm⟩ := hcl
    refine ⟨hc, ?_, ha, hm⟩
    have hbp : (b.package_id == pid) = false := by
      have := List.all_eq_true.mp hnoref b hb
      simpa using this
    simp only [List.any_eq_true] at hp ⊢
    obtain ⟨p, hpmem, hpid⟩ := hp
    refine ⟨p, List.mem_filter.mpr ⟨hpmem, ?_⟩, hpid⟩
    have hpb : p.id = b.package_id := beq_iff_eq.mp hpid
    simp [hpb, hbp]

/-- Claim C6, amended: when no booking references the package, the delete
endpoint answers 204 exactly when a package with that id existed (which is
then deleted) and 404 when none did, `delete_package` reporting truthy
exactly when a row was deleted; when a booking still references the
package the delete fails on the foreign key instead. -/
theorem delete_hajj_package_spec (db : DB) (pid : UUID)
    (hok : dbOk db = true)
    (hnoref : db.bookings.all (fun b => !(b.package_id == pid)) = true) :
    HajjPackageDAO.delete_package db pid =
      some (db.packages.any (fun p => p.id == pid),
        { db with packages := db.packages.filter (fun p => !(p.id == pid)) }) ∧
    (db.packages.any (fun p => p.id == pid) = true →
      HajjPackageViews.delete_hajj_package db pid =
        (.ok 204 (),
         { db with
             packages := db.packages.filter (fun p => !(p.id == pid)) })) ∧
    (db.packages.any (fun p => p.id == pid) = false →
      HajjPackageViews.delete_hajj_package db pid =
        (.err 404,
         { db with
             packages := db.packages.filter (fun p => !(p.id == pid)) })) := by
  have hok' := dbOk_delete_package db pid hok hnoref
  have hdel : HajjPackageDAO.delete_package db pid =
      some (db.packages.any (fun p => p.id == pid),
        { db with
            packages := db.packages.filter (fun p => !(p.id == pid)) }) := by
    simp only [HajjPackageDAO.delete_package, hok', if_true]
  refine ⟨hdel, ?_, ?_⟩
  · intro hany
    unfold HajjPackageViews.delete_hajj_package
    rw [hdel, hany]
  · intro hany
    unfold HajjPackageViews.delete_hajj_package
    rw [hdel, hany]

/-- Witness for C6 (amended): deleting an existing, unreferenced package
reports a deleted row and a 204. -/
theorem delete_hajj_package_spec_witness :
    HajjPackageDAO.delete_package dbPkg 2 = some (true, dbPkgDeleted) ∧
    HajjPackageViews.delete_hajj_package dbPkg 2 =
      (.ok 204 (), dbPkgDeleted) :=
  ⟨(delete_hajj_package_spec dbPkg 2 (by decide) (by decide)).1,
   (delete_hajj_package_spec dbPkg 2 (by decide) (by decide)).2.1
     (by decide)⟩

/-- Counterexample to C6 as stated: package 2 exists but its delete
answers neither 204 nor 404 — the booking referencing it makes the delete
fail on the foreign key, surfacing as a server error. -/
theorem delete_referenced_package_cex :
    HajjPackageViews.delete_hajj_package dbSample 2 = (.err 500, dbSample) ∧
    dbSample.packages.any (fun p => p.id == 2) = true := by
  exact ⟨by decide, by decide⟩

/-- Unfolding `likeMatch` at a leading `%`. -/
theorem likeMatch_percent_cons (ps t : List Char) :
    likeMatch ('%' :: ps) t = t.tails.any (fun suf => likeMatch ps suf) := rfl

/-- Unfolding `likeMatch` at a non-`%` pattern head and empty text. -/
theorem likeMatch_cons_nil (p : Char) (ps : List Char) (h : ¬(p = '%')) :
    likeMatch (p :: ps) [] = false := by
  rw [likeMatch.eq_def]
  simp [h]

/-- Unfolding `likeMatch` at a literal pattern head. -/
theorem likeMatch_cons_cons (p c : Char) (ps ts : List Char)
    (h1 : ¬(p = '%')) (h2 : ¬(p = '_')) :
    likeMatch (p :: ps) (c :: ts) = ((p == c) && likeMatch ps ts) := by
  rw [likeMatch.eq_def]
  simp [h1, h2]

/-- `isPrefixOf` on character lists is the prepend decomposition. -/
theorem charList_isPrefixOf_iff (s : List Char) :
    ∀ t, s.isPrefixOf t = true ↔ ∃ post, t = s ++ post := by
  induction s with
  | nil =>
    intro t
    simp [List.isPrefixOf]
  | cons a as ih =>
    intro t
    cases t with
    | nil => simp [List.isPrefixOf]
    | cons b bs =>
      simp only [List.isPrefixOf, Bool.and_eq_true, beq_iff_eq, ih bs]
      constructor
      · rintro ⟨rfl, post, rfl⟩
        exact ⟨post, rfl⟩
      · rintro ⟨post, h⟩
        cases h
        exact ⟨rfl, post, rfl⟩

/-- The pattern `%` alone matches every text. -/
theorem likeMatch_all_percent (t : List Char) : likeMatch ['%'] t = true := by
  rw [likeMatch_percent_cons]
  apply List.any_eq_true.mpr
  refine ⟨[], ?_, rfl⟩
  rw [List.mem_tails]
  exact ⟨t, by simp⟩

/-- Unpacking wildcard-freedom of a cons. -/
theorem noWildcardList_cons (a : Char) (as : List Char)
    (h : noWildcardList (a :: as) = true) :
    ¬(a = '%') ∧ ¬(a = '_') ∧ noWildcardList as = true := by
  simp only [noWildcardList, List.all_cons, Bool.and_eq_true,
    Bool.not_eq_true', beq_eq_false_iff_ne, ne_eq] at h
  exact ⟨h.1.1, h.1.2, h.2⟩

/-- A wildcard-free pattern followed by `%` matches the texts it starts. -/
theorem likeMatch_trailing_percent (s : List Char)
    (hs : noWildcardList s = true) :
    ∀ t, likeMatch (s ++ ['%']) t = s.isPrefixOf t := by
  induction s with
  | nil =>
    intro t
    rw [List.nil_append, likeMatch_all_percent]
    simp [List.isPrefixOf]
  | cons a as ih =>
    intro t
    obtain ⟨ha1, ha2, hs'⟩ := noWildcardList_cons a as hs
    rw [List.cons_append]
    cases t with
    | nil =>
      rw [likeMatch_cons_nil _ _ ha1]
      simp [List.isPrefixOf]
    | cons c ts =>
      rw [likeMatch_cons_cons _ _ _ _ ha1 ha2, ih hs' ts]
      simp [List.isPrefixOf]

/-- A wildcard-free pattern enclosed in `%`s is the substring test. -/
theorem likeMatch_enclosing_percents (s : List Char)
    (hs : noWildcardList s = true) (t : List Char) :
    likeMatch ('%' :: (s ++ ['%'])) t = occursIn s t := by
  rw [likeMatch_percent_cons, occursIn]
  have hfun : (fun suf => likeMatch (s ++ ['%']) suf)
      = (fun suf => s.isPrefixOf suf) :=
    funext (likeMatch_trailing_percent s hs)
  rw [hfun]

/-- `occursIn` is the contiguous-occurrence decomposition. -/
theorem occursIn_iff (s t : List Char) :
    occursIn s t = true ↔ ∃ pre post, t = pre ++ s ++ post := by
  rw [occursIn, List.any_eq_true]
  constructor
  · rintro ⟨suf, hsuf, hpre⟩
    rw [List.mem_tails] at hsuf
    obtain ⟨pre, rfl⟩ := hsuf
    obtain ⟨post, rfl⟩ := (charList_isPrefixOf_iff s suf).mp hpre
    exact ⟨pre, post, by simp⟩
  · rintro ⟨pre, post, rfl⟩
    refine ⟨s ++ post, ?_, ?_⟩
    · rw [List.mem_tails]
      exact ⟨pre, by simp⟩
    · exact (charList_isPrefixOf_iff s (s ++ post)).mpr ⟨post, rfl⟩

/-- Evaluating `Char.ofNat` below the surrogate range. -/
theorem char_toNat_ofNat_lt (n : Nat) (h : n < 55296) :
    (Char.ofNat n).toNat = n := by
  unfold Char.ofNat
  rw [dif_pos (Or.inl h)]
  rfl

/-- Lower-casing introduces no SQL wildcard. -/
theorem toLower_wild (c : Char) :
    (Char.toLower c = '%' → c = '%') ∧ (Char.toLower c = '_' → c = '_') := by
  by_cases h : c.toNat ≥ 65 ∧ c.toNat ≤ 90
  · have hl : Char.toLower c = Char.ofNat (c.toNat + 32) := by
      simp [Char.toLower, h]
    rw [hl]
    constructor
    · intro he
      have := congrArg Char.toNat he
      rw [char_toNat_ofNat_lt _ (by omega)] at this
      have h37 : ('%' : Char).toNat = 37 := rfl
      rw [h37] at this
      omega
    · intro he
      have := congrArg Char.toNat he
      rw [char_toNat_ofNat_lt _ (by omega)] at this
      have h95 : ('_' : Char).toNat = 95 := rfl
      rw [h95] at this
      omega
  · have hl : Char.toLower c = c := by
      simp [Char.toLower, h]
    rw [hl]
    exact ⟨fun h => h, fun h => h⟩

/-- Wildcard-freedom survives lower-casing. -/
theorem noWildcardList_lower (l : List Char)
    (h : noWildcardList l = true) : noWildcardList (lowerList l) = true := by
  simp only [noWildcardList, lowerList, List.all_eq_true, List.mem_map,
    Bool.and_eq_true, Bool.not_eq_true', beq_eq_false_iff_ne, ne_eq] at h ⊢
  rintro x ⟨c, hc, rfl⟩
  obtain ⟨h1, h2⟩ := h c hc
  exact ⟨fun he => h1 ((toLower_wild c).1 he),
         fun he => h2 ((toLower_wild c).2 he)⟩

/-- Lower-casing the `'%' ++ s ++ '%'` search pattern. -/
theorem lowerList_pattern (s : String) :
    lowerList ("%" ++ s ++ "%").data
      = '%' :: (lowerList s.data ++ ['%']) := by
  simp [lowerList, String.data_append]

/-- An `ILIKE '%s%'` with wildcard-free `s` is the case-insensitive
substring test. -/
theorem ilike_substring (col s : String)
    (hs : noWildcardList s.data = true) :
    ilike col ("%" ++ s ++ "%")
      = occursIn (lowerList s.data) (lowerList col.data) := by
  rw [ilike, lowerList_pattern]
  exact likeMatch_enclosing_percents _ (noWildcardList_lower _ hs) _

/-- Claim C9, amended: for a non-empty, wildcard-free search string,
`ClientDAO.get_by_name` returns exactly the clients in which the string
occurs case-insensitively as a substring of the first, last, or (present)
other name, while `AgentDAO.filter_by_name` matches each supplied string
only against its own field: the first-name filter against the first name,
the last-name filter against the last name. -/
theorem name_filters_ci_substring (db : DB) (s : String)
    (hs : noWildcardList s.data = true) (hne : s ≠ "") :
    (∀ c, c ∈ ClientDAO.get_by_name db s ↔ c ∈ db.clients ∧
      ((∃ pre post, lowerList c.first_name.data
          = pre ++ lowerList s.data ++ post) ∨
       (∃ pre post, lowerList c.last_name.data
          = pre ++ lowerList s.data ++ post) ∨
       (∃ o pre post, c.other_name = some o ∧
          lowerList o.data = pre ++ lowerList s.data ++ post))) ∧
    (∀ a, a ∈ AgentDAO.filter_by_name db (some s) none ↔ a ∈ db.agents ∧
      ∃ pre post, lowerList a.first_name.data
        = pre ++ lowerList s.data ++ post) ∧
    (∀ a, a ∈ AgentDAO.filter_by_name db none (some s) ↔ a ∈ db.agents ∧
      ∃ pre post, lowerList a.last_name.data
        = pre ++ lowerList s.data ++ post) := by
  have hie : s.isEmpty = false := by
    rcases Bool.eq_false_or_eq_true s.isEmpty with hf | ht
    · exact absurd ((String.isEmpty_iff s).mp hf) hne
    · exact ht
  refine ⟨?_, ?_, ?_⟩
  · intro c
    simp only [ClientDAO.get_by_name, List.mem_filter, Bool.or_eq_true]
    apply and_congr_right
    intro _
    cases ho : c.other_name with
    | none => simp [ilike_substring, hs, occursIn_iff]
    | some o => simp [ilike_substring, hs, occursIn_iff, or_assoc]
  · intro a
    simp [AgentDAO.filter_by_name, pyTruthy, hie, List.mem_filter,
      ilike_substring, hs, occursIn_iff]
  · intro a
    simp [AgentDAO.filter_by_name, pyTruthy, hie, List.mem_filter,
      ilike_substring, hs, occursIn_iff]

/-- Witness for C9 (amended) at a concrete database and search string. -/
theorem name_filters_ci_substring_witness :
    sampleClient ∈ ClientDAO.get_by_name dbSample "bob" ↔
      sampleClient ∈ dbSample.clients ∧
      ((∃ pre post, lowerList sampleClient.first_name.data
          = pre ++ lowerList "bob".data ++ post) ∨
       (∃ pre post, lowerList sampleClient.last_name.data
          = pre ++ lowerList "bob".data ++ post) ∨
       (∃ o pre post, sampleClient.other_name = some o ∧
          lowerList o.data = pre ++ lowerList "bob".data ++ post)) :=
  (name_filters_ci_substring dbSample "bob" (by decide) (by decide)).1
    sampleClient

/-- Counterexample to C9 as stated: the search string `"_"` is an SQL
wildcard, so `get_by_name` returns a client none of whose names contains
`"_"`; and the agent filter checks each string only against its own field,
so the first-name filter misses an agent whose last name contains the
string. -/
theorem name_filter_cex :
    ClientDAO.get_by_name dbSample "_" = [sampleClient] ∧
    (¬ ∃ pre post, lowerList sampleClient.first_name.data
        = pre ++ lowerList "_".data ++ post) ∧
    (¬ ∃ pre post, lowerList sampleClient.last_name.data
        = pre ++ lowerList "_".data ++ post) ∧
    sampleClient.other_name = none ∧
    AgentDAO.filter_by_name dbSample (some "lace") none = [] ∧
    sampleAgent ∈ dbSample.agents ∧
    (∃ pre post, lowerList sampleAgent.last_name.data
        = pre ++ lowerList "lace".data ++ post) := by
  refine ⟨by decide, ?_, ?_, by decide, by decide, by decide, ?_⟩
  · rintro ⟨pre, post, h⟩
    exact absurd ((occursIn_iff _ _).mpr ⟨pre, post, h⟩) (by decide)
  · rintro ⟨pre, post, h⟩
    exact absurd ((occursIn_iff _ _).mpr ⟨pre, post, h⟩) (by decide)
  · exact ⟨['l', 'o', 'v', 'e'], [], by decide⟩

/-- Setting an attribute other than `id` preserves `id`. -/
theorem set_id_ne (c : Client) (key : String) (v : FieldVal)
    (h : key ≠ "id") : (setClientAttr c key v).id = c.id := by
  cases v <;> simp only [setClientAttr] <;> split_ifs <;>
    first | rfl | simp_all

/-- Setting an attribute other than `first_name` preserves it. -/
theorem set_first_name_ne (c : Client) (key : String) (v : FieldVal)
    (h : key ≠ "first_name") :
    (setClientAttr c key v).first_name = c.first_name := by
  cases v <;> simp only [setClientAttr] <;> split_ifs <;>
    first | rfl | simp_all

/-- Setting an attribute other than `last_name` preserves it. -/
theorem set_last_name_ne (c : Client) (key : String) (v : FieldVal)
    (h : key ≠ "last_name") :
    (setClientAttr c key v).last_name = c.last_name := by
  cases v <;> simp only [setClientAttr] <;> split_ifs <;>
    first | rfl | simp_all

/-- Setting an attribute other than `other_name` preserves it. -/
theorem set_other_name_ne (c : Client) (key : String) (v : FieldVal)
    (h : key ≠ "other_name") :
    (setClientAttr c key v).other_name = c.other_name := by
  cases v <;> simp only [setClientAttr] <;> split_ifs <;>
    first | rfl | simp_all

/-- Setting an attribute other than `sex` preserves it. -/
theorem set_sex_ne (c : Client) (key : String) (v : FieldVal)
    (h : key ≠ "sex") : (setClientAttr c key v).sex = c.sex := by
  cases v <;> simp only [setClientAttr] <;> split_ifs <;>
    first | rfl | simp_all

/-- Setting an attribute other than `phone_number` preserves it. -/
theorem set_phone_number_ne (c : Client) (key : String) (v : FieldVal)
    (h : key ≠ "phone_number") :
    (setClientAttr c key v).phone_number = c.phone_number := by
  cases v <;> simp only [setClientAttr] <;> split_ifs <;>
    first | rfl | simp_all

/-- Setting an attribute other than `passport_number` preserves it. -/
theorem set_passport_number_ne (c : Client) (key : String) (v : FieldVal)
    (h : key ≠ "passport_number") :
    (setClientAttr c key v).passport_number = c.passport_number := by
  cases v <;> simp only [setClientAttr] <;> split_ifs <;>
    first | rfl | simp_all

/-- Setting an attribute other than `date_of_birth` preserves it. -/
theorem set_date_of_birth_ne (c : Client) (key : String) (v : FieldVal)
    (h : key ≠ "date_of_birth") :
    (setClientAttr c key v).date_of_birth = c.date_of_birth := by
  cases v <;> simp only [setClientAttr] <;> split_ifs <;>
    first | rfl | simp_all

/-- Setting an attribute other than `location` preserves it. -/
theorem set_location_ne (c : Client) (key : String) (v : FieldVal)
    (h : key ≠ "location") :
    (setClientAttr c key v).location = c.location := by
  cases v <;> simp only [setClientAttr] <;> split_ifs <;>
    first | rfl | simp_all

/-- Setting an attribute other than `referee_id` preserves it. -/
theorem set_referee_id_ne (c : Client) (key : String) (v : FieldVal)
    (h : key ≠ "referee_id") :
    (setClientAttr c key v).referee_id = c.referee_id := by
  cases v <;> simp only [setClientAttr] <;> split_ifs <;>
    first | rfl | simp_all

set_option maxHeartbeats 1000000 in
/-- Setting one attribute leaves every other attribute unchanged. -/
theorem getClientAttr_set_ne (c : Client) (key k : String) (v : FieldVal)
    (hk : k ≠ key) :
    getClientAttr (setClientAttr c key v) k = getClientAttr c k := by
  unfold getClientAttr
  split_ifs with h1 h2 h3 h4 h5 h6 h7 h8 h9 h10
  · rw [set_id_ne c key v (fun he => hk (h1.trans he.symm))]
  · rw [set_first_name_ne c key v (fun he => hk (h2.trans he.symm))]
  · rw [set_last_name_ne c key v (fun he => hk (h3.trans he.symm))]
  · rw [set_other_name_ne c key v (fun he => hk (h4.trans he.symm))]
  · rw [set_sex_ne c key v (fun he => hk (h5.trans he.symm))]
  · rw [set_phone_number_ne c key v (fun he => hk (h6.trans he.symm))]
  · rw [set_passport_number_ne c key v (fun he => hk (h7.trans he.symm))]
  · rw [set_date_of_birth_ne c key v (fun he => hk (h8.trans he.symm))]
  · rw [set_location_ne c key v (fun he => hk (h9.trans he.symm))]
  · rw [set_referee_id_ne c key v (fun he => hk (h10.trans he.symm))]
  · rfl

/-- Setting an attribute either leaves it unchanged (key or type
mismatch) or makes it non-null. -/
theorem getClientAttr_set_self (c : Client) (key : String) (v : FieldVal) :
    getClientAttr (setClientAttr c key v) key = getClientAttr c key ∨
    ∃ w, getClientAttr (setClientAttr c key v) key = some (some w) := by
  by_cases h1 : key = "id"
  · subst h1; cases v <;> simp [setClientAttr, getClientAttr]
  by_cases h2 : key = "first_name"
  · subst h2; cases v <;> simp [setClientAttr, getClientAttr]
  by_cases h3 : key = "last_name"
  · subst h3; cases v <;> simp [setClientAttr, getClientAttr]
  by_cases h4 : key = "other_name"
  · subst h4; cases v <;> simp [setClientAttr, getClientAttr]
  by_cases h5 : key = "sex"
  · subst h5; cases v <;> simp [setClientAttr, getClientAttr]
  by_cases h6 : key = "phone_number"
  · subst h6; cases v <;> simp [setClientAttr, getClientAttr]
  by_cases h7 : key = "passport_number"
  · subst h7; cases v <;> simp [setClientAttr, getClientAttr]
  by_cases h8 : key = "date_of_birth"
  · subst h8; cases v <;> simp [setClientAttr, getClientAttr]
  by_cases h9 : key = "location"
  · subst h9; cases v <;> simp [setClientAttr, getClientAttr]
  by_cases h10 : key = "referee_id"
  · subst h10; cases v <;> simp [setClientAttr, getClientAttr]
  left
  cases v <;>
    simp [setClientAttr, h1, h2, h3, h4, h5, h6, h7, h8, h9, h10]

/-- One kwarg application leaves attributes it does not effectively name
unchanged. -/
theorem getClientAttr_applyKwarg_ne (c : Client)
    (kv : String × Option FieldVal) (k : String)
    (h : ∀ v, kv ≠ (k, some v)) :
    getClientAttr (applyKwarg c kv) k = getClientAttr c k := by
  obtain ⟨key, val⟩ := kv
  unfold applyKwarg
  cases val with
  | none => rfl
  | some v =>
    simp only []
    by_cases hc : clientAttrNames.contains key
    · rw [if_pos hc]
      apply getClientAttr_set_ne
      intro he
      exact h v (by rw [he])
    · rw [if_neg hc]

/-- The kwarg loop leaves attributes with no effective entry unchanged. -/
theorem getClientAttr_foldl_ne (kwargs : List (String × Option FieldVal))
    (c : Client) (k : String) (h : ∀ v, (k, some v) ∉ kwargs) :
    getClientAttr (kwargs.foldl applyKwarg c) k = getClientAttr c k := by
  induction kwargs generalizing c with
  | nil => rfl
  | cons kv tl ih =>
    rw [List.foldl_cons,
      ih _ (fun v hv => h v (List.mem_cons_of_mem _ hv))]
    apply getClientAttr_applyKwarg_ne
    intro v he
    exact h v (by rw [← he]; exact List.mem_cons_self _ _)

/-- One kwarg application cannot null out a non-null attribute. -/
theorem getClientAttr_applyKwarg_nonnull (c : Client)
    (kv : String × Option FieldVal) (k : String) (w : FieldVal)
    (h : getClientAttr c k = some (some w)) :
    ∃ w', getClientAttr (applyKwarg c kv) k = some (some w') := by
  obtain ⟨key, val⟩ := kv
  unfold applyKwarg
  cases val with
  | none => exact ⟨w, h⟩
  | some v =>
    simp only []
    by_cases hc : clientAttrNames.contains key
    · rw [if_pos hc]
      by_cases hk : k = key
      · subst hk
        rcases getClientAttr_set_self c k v with heq | ⟨w', hw⟩
        · exact ⟨w, heq.trans h⟩
        · exact ⟨w', hw⟩
      · rw [getClientAttr_set_ne c key k v hk]
        exact ⟨w, h⟩
    · rw [if_neg hc]
      exact ⟨w, h⟩

/-- The kwarg loop cannot null out a non-null attribute. -/
theorem getClientAttr_foldl_nonnull
    (kwargs : List (String × Option FieldVal)) (c : Client) (k : String)
    (w : FieldVal) (h : getClientAttr c k = some (some w)) :
    ∃ w', getClientAttr (kwargs.foldl applyKwarg c) k = some (some w') := by
  induction kwargs generalizing c w with
  | nil => exact ⟨w, h⟩
  | cons kv tl ih =>
    rw [List.foldl_cons]
    obtain ⟨w1, hw1⟩ := getClientAttr_applyKwarg_nonnull c kv k w h
    exact ih _ _ hw1

/-- A kwarg with a `None` value or an unrecognized key has no effect. -/
theorem applyKwarg_ignored (c : Client) (kv : String × Option FieldVal)
    (h : (clientAttrNames.contains kv.1 && kv.2.isSome) = false) :
    applyKwarg c kv = c := by
  obtain ⟨key, val⟩ := kv
  unfold applyKwarg
  cases val with
  | none => rfl
  | some v =>
    simp only [Option.isSome_some, Bool.and_true] at h
    simp only [h]
    rfl

/-- Dropping the ignored kwargs does not change the loop's result. -/
theorem foldl_applyKwarg_filter (kwargs : List (String × Option FieldVal)) :
    ∀ c, kwargs.foldl applyKwarg c =
      (kwargs.filter
        (fun kv => clientAttrNames.contains kv.1 && kv.2.isSome)).foldl
        applyKwarg c := by
  induction kwargs with
  | nil => intro c; rfl
  | cons kv tl ih =>
    intro c
    rw [List.foldl_cons, List.filter_cons]
    cases hkv : (clientAttrNames.contains kv.1 && kv.2.isSome) with
    | true => simp only [hkv, if_true, List.foldl_cons]; exact ih _
    | false =>
      simp only [hkv, Bool.false_eq_true, if_false]
      rw [applyKwarg_ignored c kv hkv]
      exact ih _

/-- Claim C10: `update_client` applies only recognized-key, non-`None`
keyword arguments: a missing client id yields `None` with no state change;
attributes no effective entry names keep their value; non-null attributes
can never be cleared to null; and dropping the `None`-valued or
unrecognized-key arguments leaves the result unchanged. -/
theorem update_client_spec (db : DB) (cid : UUID)
    (kwargs : List (String × Option FieldVal)) :
    (ClientDAO.get_by_id db cid = none →
      ClientDAO.update_client db cid kwargs = some (none, db)) ∧
    (∀ c, ClientDAO.get_by_id db cid = some c →
      ∀ c' db', ClientDAO.update_client db cid kwargs = some (some c', db') →
        (∀ k, (∀ v, (k, some v) ∉ kwargs) →
          getClientAttr c' k = getClientAttr c k) ∧
        (∀ k w, getClientAttr c k = some (some w) →
          ∃ w', getClientAttr c' k = some (some w')) ∧
        c' = (kwargs.filter
          (fun kv => clientAttrNames.contains kv.1 && kv.2.isSome)).foldl
          applyKwarg c) := by
  constructor
  · intro h
    simp only [ClientDAO.update_client, h]
  · intro c hc c' db' h
    simp only [ClientDAO.update_client, hc] at h
    split at h
    · cases h
      exact ⟨fun k hk => getClientAttr_foldl_ne kwargs c k hk,
             fun k w hw => getClientAttr_foldl_nonnull kwargs c k w hw,
             foldl_applyKwarg_filter kwargs c⟩
    · cases h

/-- Witness for C10 at a concrete update: the phone number changes, the
`None`-valued `referee_id` argument is ignored, and the passport number
stays non-null. -/
theorem update_client_spec_witness :
    getClientAttr clientUpd "referee_id"
      = getClientAttr sampleClient "referee_id" ∧
    ∃ w', getClientAttr clientUpd "passport_number" = some (some w') :=
  have h := (update_client_spec dbSample 1
      [("phone_number", some (.str "090")),
       ("referee_id", none)]).2 sampleClient (by decide) clientUpd
      dbClientUpd (by decide)
  ⟨h.1 "referee_id" (by intro v hv; simp at hv),
   h.2.1 "passport_number" (.str "P123") (by decide)⟩

end AbdullateefApi
